import Mathlib

/-!
Shallow embedding of the ethers-rpc-pool resilience engine:
error classification (src/utils), stats registry (src/Stats),
semaphore (src/Semaphore), token-bucket rate limiter (src/RpsLimiter),
round-robin router (src/Router), instrumented provider error handling
(src/InstrumentedProvider) and the pool failover loop (src/RpcPoolProvider).

JavaScript numbers are modelled as ℚ where fractional values matter
(tokens, times, ratios) and as ℕ/ℤ where the code only uses integers.
JavaScript `undefined`/absent fields are modelled with `Option`;
JS records used as counter maps (absent key read as 0 via `|| 0`)
are modelled as total functions with default 0.
-/

namespace RpcPool

/-- Case-insensitive prefix test on char lists: does the text start with the
pattern? Transcribes the character-by-character matching a JS regex of plain
literals performs at one position. -/
def startsWithChars : List Char → List Char → Bool
  | [], _ => true
  | _ :: _, [] => false
  | p :: ps, c :: cs => (p == c) && startsWithChars ps cs

/-- Scan of the text for an occurrence of the pattern (substring test),
modelling `/lit1|lit2|…/i.test(msg)` for one literal alternative on
already-lowercased char lists. -/
def containsChars (pat : List Char) : List Char → Bool
  | [] => startsWithChars pat []
  | c :: cs => startsWithChars pat (c :: cs) || containsChars pat cs

/-- Lowercased character list of a string (case-folding step of a
case-insensitive regex test). -/
def lowerChars (s : String) : List Char :=
  s.data.map Char.toLower

/-- Case-insensitive substring test on strings: lowercases both sides, then
scans. This is the semantics of `/literal/i.test(s)` for a literal pattern. -/
def containsCI (pat s : String) : Bool :=
  containsChars (lowerChars pat) (lowerChars s)

/-- Any of the literal alternatives of a JS regex matches the string. -/
def containsAnyCI (pats : List String) (s : String) : Bool :=
  pats.any fun p => containsCI p s

/-- Drop leading whitespace, modelling `\s*`. -/
def dropWs : List Char → List Char
  | [] => []
  | c :: cs => if c.isWhitespace then dropWs cs else c :: cs

/-- Does `/error code:\s*1015/` match at this position (text already
lowercased)? -/
def cfMatchAt (l : List Char) : Bool :=
  startsWithChars "error code:".data l &&
    startsWithChars "1015".data (dropWs (l.drop "error code:".length))

/-- Scan for `/error code:\s*1015/i` anywhere in the (lowercased) text. -/
def cfMatchScan : List Char → Bool
  | [] => cfMatchAt []
  | c :: cs => cfMatchAt (c :: cs) || cfMatchScan cs

/-- `/error code:\s*1015/i.test(msg)` — the Cloudflare 1015 signature. -/
def cf1015 (s : String) : Bool :=
  cfMatchScan (lowerChars s)

/-- Model of a JavaScript error value as inspected by `src/utils.ts`:
the optional HTTP-status-bearing fields read by `getHttpStatus`, the `code`
field, the `message` field, the string the error coerces to when `message`
is falsy, and the parsed finite `retry-after` header number when present
(`getRetryAfterMs` applies `Number(...)` and a finiteness check to the raw
header; we model the post-parse value). -/
structure JsErr where
  status : Option ℤ := none
  responseStatus : Option ℤ := none
  responseStatusCode : Option ℤ := none
  errorStatus : Option ℤ := none
  errorResponseStatus : Option ℤ := none
  bodyStatusCode : Option ℤ := none
  code : Option String := none
  message : Option String := none
  asString : String := ""
  retryAfterSec : Option ℚ := none
  deriving Repr, DecidableEq

/-- `getHttpStatus(e)`: the `??` chain over the candidate status fields. -/
def getHttpStatus (e : JsErr) : Option ℤ :=
  e.status <|> e.responseStatus <|> e.responseStatusCode <|>
    e.errorStatus <|> e.errorResponseStatus <|> e.bodyStatusCode

/-- `String(e?.message || e)`: the message when truthy (non-empty), else the
error's own string coercion. -/
def errMsg (e : JsErr) : String :=
  match e.message with
  | some m => if m = "" then e.asString else m
  | none => e.asString

/-- `isRateLimitError(e)` from src/utils.ts: HTTP 429/402, the Cloudflare
1015 signature, or one of the rate-limit message patterns. -/
def isRateLimitError (e : JsErr) : Bool :=
  let status := getHttpStatus e
  if status = some 429 || status = some 402 then true
  else
    let msg := errMsg e
    if cf1015 msg then true
    else containsAnyCI ["rate limit", "payment required", "too many requests",
      "429", "quota", "throttl"] msg

/-- `getRetryAfterMs(e)`: the parsed finite retry-after header value in
seconds, times 1000; `null` (none) when absent or not finite. -/
def getRetryAfterMs (e : JsErr) : Option ℚ :=
  e.retryAfterSec.map fun n => n * 1000

/-- `isTimeoutError(e)` from src/utils.ts: the ethers `TIMEOUT` code,
HTTP 504, or one of the timeout message patterns. -/
def isTimeoutError (e : JsErr) : Bool :=
  if e.code = some "TIMEOUT" then true
  else if getHttpStatus e = some 504 then true
  else containsAnyCI ["timeout", "timed out", "ETIMEDOUT", "ESOCKETTIMEDOUT",
    "ECONNABORTED", "504 Gateway"] (errMsg e)

/-- `shouldFailover(e)`: failover on timeouts and rate limits only. -/
def shouldFailover (e : JsErr) : Bool :=
  isTimeoutError e || isRateLimitError e

/-! ## Stats (src/Stats.ts)

Counter records (`Record<string, number>` read through `|| 0`) are modelled
as total functions `String → ℕ` with default 0; `providerCooldownUntil`
holds absolute times in ms as ℚ (absent read as 0). -/

/-- The health registry state of `class Stats`. -/
structure Stats where
  total : ℕ := 0
  inFlight : ℕ := 0
  perMethod : String → ℕ := fun _ => 0
  rateLimitedTotal : ℕ := 0
  timeoutTotal : ℕ := 0
  perProviderInFlight : String → ℕ := fun _ => 0
  perProviderTotal : String → ℕ := fun _ => 0
  perProviderTimeout : String → ℕ := fun _ => 0
  perProviderRateLimited : String → ℕ := fun _ => 0
  providerCooldownUntil : String → ℚ := fun _ => 0

/-- `_bump`: `map[key] = (map[key] || 0) + 1`. -/
def mapBump (m : String → ℕ) (key : String) : String → ℕ :=
  fun x => if x = key then m key + 1 else m x

/-- `_decrease`: `map[key] = Math.max((map[key] || 0) - 1, 0)`. -/
def mapDecrease (m : String → ℕ) (key : String) : String → ℕ :=
  fun x => if x = key then m key - 1 else m x

/-- `bumpInFlightPerProvider`. -/
def Stats.bumpInFlightPerProvider (st : Stats) (id : String) : Stats :=
  { st with inFlight := st.inFlight + 1,
            perProviderInFlight := mapBump st.perProviderInFlight id }

/-- `decreaseInFlightPerProvider` (global decrease clamps at 0 —
ℕ subtraction models `Math.max(x - 1, 0)`). -/
def Stats.decreaseInFlightPerProvider (st : Stats) (id : String) : Stats :=
  { st with inFlight := st.inFlight - 1,
            perProviderInFlight := mapDecrease st.perProviderInFlight id }

/-- `bumpPerMethod`. -/
def Stats.bumpPerMethod (st : Stats) (method : String) : Stats :=
  { st with perMethod := mapBump st.perMethod method }

/-- `bumpRateLimitedPerProvider`. -/
def Stats.bumpRateLimitedPerProvider (st : Stats) (id : String) : Stats :=
  { st with rateLimitedTotal := st.rateLimitedTotal + 1,
            perProviderRateLimited := mapBump st.perProviderRateLimited id }

/-- `bumpTimeoutPerProvider`. -/
def Stats.bumpTimeoutPerProvider (st : Stats) (id : String) : Stats :=
  { st with timeoutTotal := st.timeoutTotal + 1,
            perProviderTimeout := mapBump st.perProviderTimeout id }

/-- `bumpProviderTotal`. -/
def Stats.bumpProviderTotal (st : Stats) (id : String) : Stats :=
  { st with total := st.total + 1,
            perProviderTotal := mapBump st.perProviderTotal id }

/-- `timeoutRatio(id) = t / n` (0 when no calls yet); named `timeoutRatio`
in the source. -/
def Stats.timeoutFrac (st : Stats) (id : String) : ℚ :=
  let t : ℚ := st.perProviderTimeout id
  let n : ℚ := st.perProviderTotal id
  if n ≠ 0 then t / n else 0

/-- `isInCooldown(id)`: `(cooldownUntil[id] || 0) > Date.now()`. -/
def Stats.isInCooldown (st : Stats) (id : String) (now : ℚ) : Bool :=
  st.providerCooldownUntil id > now

/-- `setCooldown(id, ms)`: `cooldownUntil[id] = Date.now() + ms`. -/
def Stats.setCooldown (st : Stats) (id : String) (ms : ℚ) (now : ℚ) : Stats :=
  { st with providerCooldownUntil :=
      fun x => if x = id then now + ms else st.providerCooldownUntil x }

/-! ## InstrumentedStaticJsonRpcProvider (src/InstrumentedProvider.ts),
the variant with per-endpoint timeout/rps configuration. -/

/-- `ProviderParams` of the configurable provider; optional JS fields are
`Option`, read through `||`-defaults in the constructor and `send`. -/
structure ProviderParams where
  url : String := ""
  chainId : ℤ := 1
  providerId : String := ""
  inFlight : Option ℕ := none
  timeout : Option ℕ := none
  rps : Option ℚ := none
  rpsBurst : Option ℚ := none
  deriving Repr, DecidableEq

/-- JS `x || d` on an optional number: the default when the field is absent
or 0 (falsy). -/
def jsOrNat (x : Option ℕ) (d : ℕ) : ℕ :=
  match x with
  | some v => if v = 0 then d else v
  | none => d

/-- The hard per-call timeout `_sendInstrumented` passes to `withTimeout`:
`this.params.timeout || 10_0000` (note: the literal is 100000). -/
def effectiveSendTimeout (p : ProviderParams) : ℕ :=
  jsOrNat p.timeout 100000

/-- One cooldown write performed by the error handler: the duration in ms
passed to `stats.setCooldown`. -/
structure CooldownWrite where
  id : String
  ms : ℚ
  deriving Repr, DecidableEq

/-- The `catch` block of `_sendInstrumented` as a state transformer on
`Stats`, also returning the list of `setCooldown` writes it performs, in
order. `now` is `Date.now()`; `jitter` is the sampled
`Math.floor(Math.random() * 1000)`. -/
def handleSendError (providerId : String) (e : JsErr) (st : Stats)
    (now : ℚ) (jitter : ℕ) : Stats × List CooldownWrite :=
  let rl := isRateLimitError e
  let stw :=
    if rl then
      let st1 := st.bumpRateLimitedPerProvider providerId
      let cooldownMs : ℚ := 10000
      let raMs := (getRetryAfterMs e).getD cooldownMs
      (st1.setCooldown providerId raMs now,
        [CooldownWrite.mk providerId raMs])
    else (st, ([] : List CooldownWrite))
  let isTimeout := isTimeoutError e
  if isTimeout then
    let st2 := stw.1.bumpTimeoutPerProvider providerId
    let n := st2.perProviderTotal providerId
    let ratio := st2.timeoutFrac providerId
    if n ≥ 50 ∧ ratio ≥ (2 : ℚ) / 10 then
      let cooldownMs : ℚ := if ratio ≥ (5 : ℚ) / 10 then 600 * 1000 else 60000
      let raMs := (getRetryAfterMs e).getD cooldownMs
      (st2.setCooldown providerId (raMs + jitter) now,
        stw.2 ++ [CooldownWrite.mk providerId (raMs + jitter)])
    else (st2, stw.2)
  else stw

/-! ## Semaphore (src/Semaphore.ts)

The semaphore is modelled as a labelled transition system over its state
`{inUse, queue}`: `acquire id` either grants immediately (`inUse < max`) or
appends the waiter to the queue; `release` decrements `inUse` (clamped at 0,
`Math.max(0, inUse - 1)`) and, when the queue is non-empty, shifts its head
and runs it — which re-increments `inUse` and grants that waiter. Waiter
identities are abstract tokens (ℕ). -/

/-- The mutable state of `class Semaphore`. -/
structure SemState where
  inUse : ℕ := 0
  queue : List ℕ := []
  deriving Repr, DecidableEq

/-- An operation applied to the semaphore. -/
inductive SemOp where
  | acquire (id : ℕ)
  | release
  deriving Repr, DecidableEq

/-- One step of the semaphore; returns the new state, the ids enqueued by
this step and the ids granted a slot by this step (in order). -/
def semStep (max : ℕ) (s : SemState) : SemOp → SemState × List ℕ × List ℕ
  | .acquire id =>
    if s.inUse < max then
      ({ s with inUse := s.inUse + 1 }, [], [id])
    else
      ({ s with queue := s.queue ++ [id] }, [id], [])
  | .release =>
    match s.queue with
    | [] => ({ inUse := s.inUse - 1, queue := [] }, [], [])
    | w :: rest => ({ inUse := s.inUse - 1 + 1, queue := rest }, [], [w])

/-- Run a sequence of operations, accumulating the enqueued ids and the ids
woken by `release` steps (not the immediate grants), each in order. -/
def semRun (max : ℕ) (s : SemState) : List SemOp → SemState × List ℕ × List ℕ
  | [] => (s, [], [])
  | op :: ops =>
    let st := semStep max s op
    let woken1 := match op with
      | .release => st.2.2
      | .acquire _ => []
    let rest := semRun max st.1 ops
    (rest.1, st.2.1 ++ rest.2.1, woken1 ++ rest.2.2)

/-! ## RpsLimiter (src/RpsLimiter.ts)

Tokens and times are ℚ (JS doubles used fractionally). The `take` loop is
modelled one iteration at a time: `rpsTakeStep` performs refill-and-check at
an observation time `now`; the real loop sleeps between iterations, so a run
of `take` is a step sequence over the successive wakeup times. -/

/-- The mutable state of `class RpsLimiter`. -/
structure RpsState where
  tokens : ℚ
  lastRefill : ℚ
  deriving Repr, DecidableEq

/-- `new RpsLimiter(rps, burst)`: bucket starts full at time `now0`. -/
def rpsInit (burst : ℚ) (now0 : ℚ) : RpsState :=
  { tokens := burst, lastRefill := now0 }

/-- `refill(now)`: disabled when `rps ≤ 0`; otherwise add
`elapsed/1000 * rps` tokens, capped at `burst`, when time has advanced. -/
def rpsRefill (rps burst : ℚ) (s : RpsState) (now : ℚ) : RpsState :=
  if rps ≤ 0 then s
  else
    let elapsed := now - s.lastRefill
    if elapsed ≤ 0 then s
    else
      { tokens := min burst (s.tokens + elapsed / 1000 * rps),
        lastRefill := now }

/-- Outcome of one iteration of the `while (true)` loop in `take`. -/
inductive RpsStepResult where
  | done (s : RpsState)
  | wait (sleepMs : ℚ) (s : RpsState)
  deriving Repr, DecidableEq

/-- One iteration of `take(count)`'s loop at observation time `now`
(assuming the `rps ≤ 0` early return did not fire): refill, then either pay
`count` tokens and resolve, or compute the chunked sleep
`min(ceil(need/rps*1000), 250)` and go around again. -/
def rpsTakeStep (rps burst count : ℚ) (s : RpsState) (now : ℚ) :
    RpsStepResult :=
  let s := rpsRefill rps burst s now
  if s.tokens ≥ count then
    .done { s with tokens := s.tokens - count }
  else
    let need := count - s.tokens
    let waitMs : ℚ := ⌈need / rps * 1000⌉
    .wait (min waitMs 250) s

/-- Did this loop iteration resolve the `take` call? -/
def RpsStepResult.resolved : RpsStepResult → Bool
  | .done _ => true
  | .wait _ _ => false

/-- Run the `take` loop over a list of successive observation times;
`some s` when one iteration resolved, `none` when every iteration in the
list went back to sleep. -/
def rpsTakeRun (rps burst count : ℚ) (s : RpsState) :
    List ℚ → Option RpsState
  | [] => none
  | now :: rest =>
    match rpsTakeStep rps burst count s now with
    | .done s' => some s'
    | .wait _ s' => rpsTakeRun rps burst count s' rest

/-! ## Router (src/Router.ts) and endpoints (src/RpcPoolProvider.ts) -/

/-- An `Endpoint` record: `{providerId, url, provider, limiter}`; the
provider object itself is represented by its behaviour, supplied separately
to the pool loop keyed by `providerId`. -/
structure Endpoint where
  providerId : String
  url : String := ""
  deriving Repr, DecidableEq

/-- Router state: the fixed endpoint list and the round-robin cursor `rr`
(only ever incremented, so a ℕ; the JS double guard `((x % n) + n) % n`
reduces to `x % n` for non-negative `x`). -/
structure RouterState where
  endpoints : List Endpoint
  rr : ℕ := 0
  deriving Repr, DecidableEq

/-- `size()`. -/
def routerSize (rt : RouterState) : ℕ :=
  rt.endpoints.length

/-- The `for (k = 0; k < n; k++)` scan of `pick()`: at most `k` probes
starting at cursor `rr`, returning the first endpoint not in cooldown and
the advanced cursor; `none` when all probes were in cooldown. -/
def pickScan (endpoints : List Endpoint) (cooled : String → Bool)
    (rr : ℕ) : ℕ → Option Endpoint × ℕ
  | 0 => (none, rr)
  | k + 1 =>
    match endpoints[rr % endpoints.length]? with
    | some ep =>
      if cooled ep.providerId then pickScan endpoints cooled (rr + 1) k
      else (some ep, rr + 1)
    | none => (none, rr + 1)

/-- `pick()`: scan up to `n` candidates; if all were in cooldown, fall back
to the next round-robin position anyway. With `n = 0` the JS fallback
index is `NaN` and `endpoints[NaN]` is `undefined`, modelled as `none`
(list lookup out of range). -/
def routerPick (rt : RouterState) (cooled : String → Bool) :
    Option Endpoint × RouterState :=
  let n := rt.endpoints.length
  match pickScan rt.endpoints cooled rt.rr n with
  | (some ep, rr') => (some ep, { rt with rr := rr' })
  | (none, rr') =>
    (rt.endpoints[rr' % n]?, { rt with rr := rr' + 1 })

/-- The endpoint list built by the `RPCPoolProvider` constructor:
`providerId` for entry `i` is
`` `rpc#${i + 1}-chainId:${chainId}-${url}` ``. -/
def mkEndpoints (urls : List String) (chainId : ℤ) : List Endpoint :=
  urls.enum.map fun p =>
    { providerId :=
        "rpc#" ++ toString (p.1 + 1) ++ "-chainId:" ++ toString chainId
          ++ "-" ++ p.2,
      url := p.2 }

/-- The provider-id formula as §6 of the specification words it:
`"rpc#" + (i + 1) + "-" + groupId + "-" + url`. -/
def specProviderId (i : ℕ) (groupId : ℤ) (url : String) : String :=
  "rpc#" ++ toString (i + 1) ++ "-" ++ toString groupId ++ "-" ++ url

/-! ## Pool orchestrator: `RPCPoolProvider.send` (src/RpcPoolProvider.ts)

The endpoint clients are represented by a behaviour oracle
`String → Except JsErr String` keyed by `providerId` (what
`ep.provider.send` resolves or rejects with), the cooldown predicate is the
router's view of `stats.isInCooldown`, `Math.random()` draws are the
sequence `rand`, and a fuel parameter bounds the number of loop iterations
(`none` = fuel ran out before the loop settled). -/

/-- Observable effects of one `send` invocation: number of `pick()` calls,
the endpoint clients invoked in order, and the backoff waits performed —
each recorded as (tried.size at that point, delay in ms). -/
structure PoolTrace where
  picks : ℕ := 0
  invoked : List String := []
  waits : List (ℕ × ℚ) := []
  deriving Repr, DecidableEq

/-- Result of one `send` invocation. -/
inductive PoolOutcome where
  | ok (v : String)
  | err (e : JsErr)
  | noRpc
  | undefinedAccess
  deriving Repr, DecidableEq

/-- The backoff delay before the next failover iteration:
`Math.random() * Math.min(1000 * 2 ** (tried.size - 1), 5000)` where `r` is
the `Math.random()` draw. -/
def backoffDelayMs (triedCount : ℕ) (r : ℚ) : ℚ :=
  r * min (1000 * 2 ^ (triedCount - 1)) 5000

/-- The `while (tried.size < maxUniqueTries)` loop of `send`.
`.undefinedAccess` models the TypeError JS would raise reading
`ep.providerId` off `undefined` (unreachable while
`maxUnique ≤ endpoint count`). -/
def poolGo (behavior : String → Except JsErr String)
    (cooled : String → Bool) (maxUnique : ℕ) (rand : ℕ → ℚ) :
    ℕ → RouterState → List String → ℕ → PoolTrace × Option PoolOutcome
  | 0, _, tried, _ =>
    if tried.length < maxUnique then ({}, none) else ({}, some .noRpc)
  | f + 1, rt, tried, ridx =>
    if tried.length < maxUnique then
      match routerPick rt cooled with
        | (none, _) => ({ picks := 1 }, some .undefinedAccess)
        | (some ep, rt') =>
          if tried.contains ep.providerId then
            let r := poolGo behavior cooled maxUnique rand f rt' tried ridx
            ({ r.1 with picks := r.1.picks + 1 }, r.2)
          else
            let tried' := tried ++ [ep.providerId]
            match behavior ep.providerId with
            | .ok v =>
              ({ picks := 1, invoked := [ep.providerId] }, some (.ok v))
            | .error e =>
              if shouldFailover e = false then
                ({ picks := 1, invoked := [ep.providerId] }, some (.err e))
              else if maxUnique ≤ tried'.length then
                ({ picks := 1, invoked := [ep.providerId] }, some (.err e))
              else
                let d := backoffDelayMs tried'.length (rand ridx)
                let r := poolGo behavior cooled maxUnique rand f rt' tried' (ridx + 1)
                ({ picks := r.1.picks + 1,
                   invoked := ep.providerId :: r.1.invoked,
                   waits := (tried'.length, d) :: r.1.waits }, r.2)
    else ({}, some .noRpc)

/-- `RPCPoolProvider.send`: computes
`maxUniqueTries = Math.min(retry.attempts, router.size())` and runs the
loop with an empty `tried` set. -/
def poolSend (behavior : String → Except JsErr String)
    (cooled : String → Bool) (rand : ℕ → ℚ) (attempts : ℕ)
    (rt : RouterState) (fuel : ℕ) : PoolTrace × Option PoolOutcome :=
  poolGo behavior cooled (min attempts (routerSize rt)) rand fuel rt [] 0

/-! ## Concrete fixtures used by counterexamples and witnesses -/

/-- A terminal (non-failover-eligible) error: HTTP 400 bad request. -/
def errBadRequest : JsErr :=
  { status := some 400, message := some "bad request" }

/-- A rate-limit error: HTTP 429. -/
def errRateLimited : JsErr :=
  { status := some 429, message := some "rate limit" }

/-- A pure timeout error, as `withTimeout` synthesizes it. -/
def errTimeout : JsErr :=
  { code := some "TIMEOUT", message := some "RPC timeout after 10000ms" }

/-- An error classified as rate-limit (status 429) and simultaneously as
timeout (message pattern). -/
def errRateLimitTimeout : JsErr :=
  { status := some 429, message := some "timeout" }

/-- Stats after a single call to provider `p` and no timeouts yet. -/
def statsOneCall : Stats :=
  { perProviderTotal := fun x => if x = "p" then 1 else 0 }

/-- Stats with 50 calls and 9 timeouts recorded for provider `p`. -/
def statsFiftyCalls : Stats :=
  { perProviderTotal := fun x => if x = "p" then 50 else 0,
    perProviderTimeout := fun x => if x = "p" then 9 else 0 }

/-- A two-endpoint router at cursor 0. -/
def twoEndpointRouter : RouterState :=
  { endpoints := [{ providerId := "a" }, { providerId := "b" }], rr := 0 }

/-! # Theorems -/

/-- Claim C1: the hard per-call timeout raced against the base request when
the `timeout` configuration field is omitted. The code passes
`this.params.timeout || 10_0000` to `withTimeout`, i.e. 100000 ms, not the
documented default of 10000 ms. -/
theorem effectiveSendTimeout_default_eval :
    effectiveSendTimeout { timeout := none } = 100000 ∧ (100000 : ℕ) ≠ 10000 := by
  exact ⟨rfl, by decide⟩

/-- Claim C2, counterexample: with one url `"u"` and chainId 1 the
constructed providerId is not `"rpc#" + 1 + "-" + 1 + "-u"` (the spec's
formula, which omits the `chainId:` prefix the code inserts). -/
theorem mkEndpoints_specProviderId_counterexample :
    (mkEndpoints ["u"] 1).map Endpoint.providerId ≠ [specProviderId 0 1 "u"] := by
  decide

/-- Claim C2 (amended): the providerId of entry `i` equals
`"rpc#" + (i+1) + "-chainId:" + groupId + "-" + url`. -/
theorem mkEndpoints_providerId (urls : List String) (chainId : ℤ) (i : ℕ) :
    ((mkEndpoints urls chainId)[i]?).map Endpoint.providerId =
      (urls[i]?).map fun url =>
        "rpc#" ++ toString (i + 1) ++ "-chainId:" ++ toString chainId
          ++ "-" ++ url := by
  rw [mkEndpoints, List.getElem?_map, List.getElem?_enum, Option.map_map,
    Option.map_map]
  cases urls[i]? <;> rfl

/-- Claim C5: with zero configured endpoints, `send` fails with the
synthetic `No RPC available` error, invoking `pick()` zero times (and
invoking no client and performing no backoff wait). -/
theorem poolSend_no_endpoints (behavior : String → Except JsErr String)
    (cooled : String → Bool) (rand : ℕ → ℚ) (attempts fuel rr : ℕ) :
    poolSend behavior cooled rand attempts { endpoints := [], rr := rr } fuel =
      ({ picks := 0, invoked := [], waits := [] }, some .noRpc) := by
  cases fuel <;> simp [poolSend, poolGo, routerSize]

/-- Claim C10: `pick()` on an empty endpoint list returns `undefined`
(`none`) rather than throwing or returning an endpoint — the scan loop does
not run and the fallback indexes outside the array — while still advancing
the cursor. -/
theorem routerPick_empty (rr : ℕ) (cooled : String → Bool) :
    routerPick { endpoints := [], rr := rr } cooled =
      (none, { endpoints := [], rr := rr + 1 }) := by
  unfold routerPick pickScan
  simp

/-- When every endpoint is in cooldown, the scan loop of `pick()` probes
`k` candidates without accepting any, advancing the cursor by one per
probe. -/
theorem pickScan_all_cooled (endpoints : List Endpoint)
    (cooled : String → Bool) (hne : endpoints ≠ [])
    (hall : ∀ ep ∈ endpoints, cooled ep.providerId = true) :
    ∀ (k rr : ℕ), pickScan endpoints cooled rr k = (none, rr + k) := by
  intro k
  induction k with
  | zero => intro rr; rfl
  | succ k ih =>
    intro rr
    have hn : 0 < endpoints.length := List.length_pos.mpr hne
    have hlt : rr % endpoints.length < endpoints.length := Nat.mod_lt _ hn
    rw [pickScan, List.getElem?_eq_getElem hlt]
    simp only [hall _ (List.getElem_mem hlt), if_true, ih]
    have : rr + 1 + k = rr + (k + 1) := by omega
    rw [this]

/-- When every endpoint is in cooldown (and at least one exists), `pick()`
returns the endpoint at the current round-robin position via the fallback,
advancing the cursor past the whole scan. -/
theorem routerPick_all_cooled (rt : RouterState) (cooled : String → Bool)
    (hne : rt.endpoints ≠ [])
    (hall : ∀ ep ∈ rt.endpoints, cooled ep.providerId = true) :
    routerPick rt cooled =
      (rt.endpoints[rt.rr % rt.endpoints.length]?,
        { rt with rr := rt.rr + rt.endpoints.length + 1 }) := by
  simp only [routerPick, pickScan_all_cooled rt.endpoints cooled hne hall,
    Nat.add_mod_right]

/-- Claim C7: with every endpoint in cooldown, `pick()` never fails — it
returns the endpoint at the next round-robin position — and on `[a, b, c]`
four successive picks yield `a, b, c, a`. -/
theorem routerPick_all_cooldown_liveness :
    (∀ (rt : RouterState) (cooled : String → Bool), rt.endpoints ≠ [] →
      (∀ ep ∈ rt.endpoints, cooled ep.providerId = true) →
      (routerPick rt cooled).1 =
          rt.endpoints[rt.rr % rt.endpoints.length]? ∧
        (routerPick rt cooled).1.isSome = true) ∧
    (∀ a b c : Endpoint,
      let t : String → Bool := fun _ => true
      let r1 := routerPick { endpoints := [a, b, c], rr := 0 } t
      let r2 := routerPick r1.2 t
      let r3 := routerPick r2.2 t
      let r4 := routerPick r3.2 t
      (r1.1, r2.1, r3.1, r4.1) = (some a, some b, some c, some a)) := by
  constructor
  · intro rt cooled hne hall
    have hn : 0 < rt.endpoints.length := List.length_pos.mpr hne
    have hlt : rt.rr % rt.endpoints.length < rt.endpoints.length :=
      Nat.mod_lt _ hn
    rw [routerPick_all_cooled rt cooled hne hall]
    exact ⟨rfl, by rw [List.getElem?_eq_getElem hlt]; rfl⟩
  · intro a b c
    have hstep : ∀ rr : ℕ,
        routerPick { endpoints := [a, b, c], rr := rr } (fun _ => true) =
          ([a, b, c][rr % 3]?,
            { endpoints := [a, b, c], rr := rr + 3 + 1 }) := by
      intro rr
      simpa using routerPick_all_cooled { endpoints := [a, b, c], rr := rr }
        (fun _ => true) (by simp) (by simp)
    simp [hstep]

/-- Claim C7, witness: instantiating the liveness conjunct on two concrete
all-cooled endpoints yields a returned endpoint. -/
theorem routerPick_all_cooldown_liveness_witness :
    (routerPick twoEndpointRouter (fun _ => true)).1.isSome = true :=
  (routerPick_all_cooldown_liveness.1 twoEndpointRouter
    (fun _ => true) (by decide) (by decide)).2

/-- Semaphore run invariant, generalized over the starting state: from any
state respecting the capacity bound, the bound is preserved, and the
starting queue followed by the ids enqueued during the run equals the ids
woken during the run followed by the final queue (the queue is consumed
strictly front-first). -/
theorem semRun_invariant (max : ℕ) (hmax : 1 ≤ max) :
    ∀ (ops : List SemOp) (s : SemState), s.inUse ≤ max →
      (semRun max s ops).1.inUse ≤ max ∧
        s.queue ++ (semRun max s ops).2.1 =
          (semRun max s ops).2.2 ++ (semRun max s ops).1.queue := by
  intro ops
  induction ops with
  | nil => intro s h; simpa [semRun] using h
  | cons op ops ih =>
    intro s h
    cases op with
    | acquire id =>
      by_cases hlt : s.inUse < max
      · have h2 := ih { s with inUse := s.inUse + 1 } (by dsimp; omega)
        simpa [semRun, semStep, hlt] using h2
      · have h2 := ih { s with queue := s.queue ++ [id] } h
        simpa [semRun, semStep, hlt, List.append_assoc] using h2
    | release =>
      match hq : s.queue with
      | [] =>
        have h2 := ih { inUse := s.inUse - 1, queue := [] } (by dsimp; omega)
        simpa [semRun, semStep, hq] using h2
      | w :: rest =>
        have h2 := ih { inUse := s.inUse - 1 + 1, queue := rest }
          (by dsimp; omega)
        simpa [semRun, semStep, hq] using h2

/-- Claim C8: for every capacity ≥ 1 and every operation sequence from the
initial state, the number of concurrently granted, unreleased acquisitions
(`inUse`, a ℕ, hence also never negative) never exceeds the capacity, and
the ids that entered the wait queue equal the ids woken by releases
followed by the still-waiting queue — i.e. freed slots are granted to
waiters strictly in FIFO arrival order. -/
theorem semaphore_capacity_and_fifo (max : ℕ) (hmax : 1 ≤ max)
    (ops : List SemOp) :
    (semRun max { inUse := 0, queue := [] } ops).1.inUse ≤ max ∧
      (semRun max { inUse := 0, queue := [] } ops).2.1 =
        (semRun max { inUse := 0, queue := [] } ops).2.2 ++
          (semRun max { inUse := 0, queue := [] } ops).1.queue := by
  have h := semRun_invariant max hmax ops { inUse := 0, queue := [] }
    (Nat.zero_le max)
  simpa using h

/-- Claim C8, witness: capacity 1 with three acquirers and three releases;
both invariants hold on the concrete run. -/
theorem semaphore_capacity_and_fifo_witness :
    (semRun 1 { inUse := 0, queue := [] }
        [.acquire 10, .acquire 11, .acquire 12, .release, .release,
          .release]).1.inUse ≤ 1 ∧
      (semRun 1 { inUse := 0, queue := [] }
          [.acquire 10, .acquire 11, .acquire 12, .release, .release,
            .release]).2.1 =
        (semRun 1 { inUse := 0, queue := [] }
            [.acquire 10, .acquire 11, .acquire 12, .release, .release,
              .release]).2.2 ++
          (semRun 1 { inUse := 0, queue := [] }
              [.acquire 10, .acquire 11, .acquire 12, .release, .release,
                .release]).1.queue :=
  semaphore_capacity_and_fifo 1 (by decide)
    [.acquire 10, .acquire 11, .acquire 12, .release, .release, .release]

/-- Lazy refill never lifts the token balance above the bucket capacity. -/
theorem rpsRefill_tokens_le (rps burst : ℚ) (s : RpsState) (now : ℚ)
    (h : s.tokens ≤ burst) : (rpsRefill rps burst s now).tokens ≤ burst := by
  unfold rpsRefill
  split
  · exact h
  · dsimp only
    split
    · exact h
    · exact min_le_left _ _

/-- With a demand exceeding the bucket capacity, one loop iteration of
`take` always goes back to sleep, and the capacity bound on the balance is
preserved. -/
theorem rpsTakeStep_overdraft (rps burst count : ℚ) (s : RpsState)
    (now : ℚ) (hb : s.tokens ≤ burst) (hc : burst < count) :
    ∃ w s', rpsTakeStep rps burst count s now = .wait w s' ∧
      s'.tokens ≤ burst := by
  have hle := rpsRefill_tokens_le rps burst s now hb
  unfold rpsTakeStep
  rw [if_neg (not_le.mpr (lt_of_le_of_lt hle hc))]
  exact ⟨_, _, rfl, hle⟩

/-- Once the elapsed time covers `count / rps` seconds, the refilled
balance reaches the demand, provided the demand fits the capacity. -/
theorem rpsRefill_tokens_ge (rps burst count : ℚ) (s : RpsState) (now : ℚ)
    (hrps : 0 < rps) (ht0 : 0 ≤ s.tokens) (hcb : count ≤ burst)
    (hnow : s.lastRefill + count / rps * 1000 ≤ now) :
    count ≤ (rpsRefill rps burst s now).tokens := by
  have hrne : rps ≠ 0 := ne_of_gt hrps
  have helapsed : count / rps * 1000 ≤ now - s.lastRefill := by linarith
  unfold rpsRefill
  rw [if_neg (not_le.mpr hrps)]
  dsimp only
  by_cases hel : now - s.lastRefill ≤ 0
  · rw [if_pos hel]
    have hcnp : count ≤ 0 := by
      by_contra hpos
      push_neg at hpos
      have h1 : 0 < count / rps * 1000 :=
        mul_pos (div_pos hpos hrps) (by norm_num)
      linarith
    exact le_trans hcnp ht0
  · rw [if_neg hel]
    push_neg at hel
    have key : count ≤ (now - s.lastRefill) / 1000 * rps := by
      have h2 : count / rps * 1000 * (rps / 1000) ≤
          (now - s.lastRefill) * (rps / 1000) :=
        mul_le_mul_of_nonneg_right helapsed
          (le_of_lt (div_pos hrps (by norm_num)))
      calc count = count / rps * 1000 * (rps / 1000) := by field_simp
        _ ≤ (now - s.lastRefill) * (rps / 1000) := h2
        _ = (now - s.lastRefill) / 1000 * rps := by ring
    exact le_min hcb (by linarith)

/-- Claim C9: for `rps > 0`, a `take(count)` with `count ≤ burst` resolves
at any loop iteration whose observation time has accrued `count / rps`
seconds since the last refill, while a `take(count)` with `count > burst`
never resolves: along every sequence of wakeup times the loop goes back to
sleep, because the balance can never exceed `burst`. -/
theorem rpsTake_within_burst_resolves_beyond_never (rps burst count : ℚ)
    (hrps : 0 < rps) :
    (count ≤ burst → ∀ (s : RpsState) (now : ℚ), 0 ≤ s.tokens →
        s.lastRefill + count / rps * 1000 ≤ now →
        (rpsTakeStep rps burst count s now).resolved = true) ∧
    (burst < count → ∀ (nows : List ℚ) (s : RpsState), s.tokens ≤ burst →
        rpsTakeRun rps burst count s nows = none) := by
  constructor
  · intro hcb s now ht0 hnow
    have hge := rpsRefill_tokens_ge rps burst count s now hrps ht0 hcb hnow
    unfold rpsTakeStep
    rw [if_pos hge]
    rfl
  · intro hc nows
    induction nows with
    | nil => intro s _; rfl
    | cons now rest ih =>
      intro s hb
      obtain ⟨w, s', hstep, hb'⟩ :=
        rpsTakeStep_overdraft rps burst count s now hb hc
      unfold rpsTakeRun
      rw [hstep]
      exact ih s' hb'

/-- Claim C9, witness: with `rps = 1, burst = 5` starting from the full
bucket, `take(3)` resolves at time 3000 ms, and `take(6)` resolves at
neither of two wakeups. -/
theorem rpsTake_within_burst_witness :
    (rpsTakeStep 1 5 3 (rpsInit 5 0) 3000).resolved = true ∧
      rpsTakeRun 1 5 6 (rpsInit 5 0) [100, 100000] = none :=
  ⟨(rpsTake_within_burst_resolves_beyond_never 1 5 3 (by norm_num)).1
      (by norm_num) (rpsInit 5 0) 3000 (by norm_num [rpsInit])
      (by norm_num [rpsInit]),
    (rpsTake_within_burst_resolves_beyond_never 1 5 6 (by norm_num)).2
      (by norm_num) [100, 100000] (rpsInit 5 0) (by norm_num [rpsInit])⟩

/-- Claim C3, counterexample: an error classified as timeout (and also as
rate-limit: HTTP 429 with a timeout message) observed after a single call
— so the ≥ 50 sample-size threshold is not met — still places the endpoint
into cooldown, through the rate-limit branch of the handler. -/
theorem timeout_cooldown_iff_counterexample :
    isTimeoutError errRateLimitTimeout = true ∧
      statsOneCall.perProviderTotal "p" < 50 ∧
      (handleSendError "p" errRateLimitTimeout statsOneCall 0 0).2 ≠ [] := by
  decide

/-- Claim C3 (amended): for every error classified as timeout and not as
rate-limit, the handler places the endpoint into cooldown iff, at the point
the code reads the counters (after bumping the timeout counter), the
endpoint's total call count is at least 50 and its timeout ratio is at
least 0.2. -/
theorem handleSendError_timeout_cooldown (id : String) (e : JsErr)
    (st : Stats) (now : ℚ) (j : ℕ)
    (ht : isTimeoutError e = true) (hrl : isRateLimitError e = false) :
    (handleSendError id e st now j).2 ≠ [] ↔
      50 ≤ st.perProviderTotal id ∧
        (2 : ℚ) / 10 ≤ (st.bumpTimeoutPerProvider id).timeoutFrac id := by
  unfold handleSendError
  rw [hrl, ht]
  simp only [Bool.false_eq_true, if_false, if_true]
  by_cases hcond : (st.bumpTimeoutPerProvider id).perProviderTotal id ≥ 50 ∧
      (st.bumpTimeoutPerProvider id).timeoutFrac id ≥ (2 : ℚ) / 10
  · rw [if_pos hcond]
    exact iff_of_true (by simp) hcond
  · rw [if_neg hcond]
    exact iff_of_false (by simp) hcond

/-- Claim C3, witness: a pure timeout error at 50 calls with 9 prior
timeouts (ratio 10/50 = 0.2 after the bump) does place the endpoint into
cooldown. -/
theorem handleSendError_timeout_cooldown_witness :
    (handleSendError "p" errTimeout statsFiftyCalls 0 0).2 ≠ [] :=
  (handleSendError_timeout_cooldown "p" errTimeout statsFiftyCalls 0 0
    (by decide) (by decide)).mpr
    (by
      refine ⟨by decide, ?_⟩
      simp only [statsFiftyCalls, Stats.bumpTimeoutPerProvider,
        Stats.timeoutFrac, mapBump]
      norm_num)

/-- Claim C4: a first-attempt error that is neither rate-limit nor timeout
(not failover-eligible) propagates to the caller as that exact error value,
with exactly one pick, exactly one client invocation (the picked
endpoint's) and no backoff wait. -/
theorem pool_terminal_error_propagates
    (behavior : String → Except JsErr String) (cooled : String → Bool)
    (rand : ℕ → ℚ) (attempts fuel : ℕ) (rt : RouterState)
    (ep : Endpoint) (e : JsErr)
    (hne : rt.endpoints ≠ []) (hat : 1 ≤ attempts) (hfuel : 1 ≤ fuel)
    (hpick : (routerPick rt cooled).1 = some ep)
    (hbeh : behavior ep.providerId = .error e)
    (hterm : shouldFailover e = false) :
    poolSend behavior cooled rand attempts rt fuel =
      ({ picks := 1, invoked := [ep.providerId], waits := [] },
        some (.err e)) := by
  obtain ⟨f, rfl⟩ : ∃ f, fuel = f + 1 := ⟨fuel - 1, by omega⟩
  have hn : 0 < rt.endpoints.length := List.length_pos.mpr hne
  unfold poolSend
  simp only [poolGo]
  rw [if_pos (by simp only [List.length_nil, routerSize]; omega)]
  rcases hrp : routerPick rt cooled with ⟨o, rt2⟩
  rw [hrp] at hpick
  simp only at hpick
  subst hpick
  dsimp only
  rw [if_neg (by simp), hbeh]
  dsimp only
  rw [if_pos hterm]

/-- Claim C4, witness: a 400 bad-request on the first picked endpoint of a
two-endpoint pool propagates unmodified after one invocation, no waits. -/
theorem pool_terminal_error_propagates_witness :
    poolSend (fun _ => .error errBadRequest) (fun _ => false) (fun _ => 0) 2
        twoEndpointRouter 5 =
      ({ picks := 1, invoked := ["a"], waits := [] },
        some (.err errBadRequest)) :=
  pool_terminal_error_propagates (fun _ => .error errBadRequest)
    (fun _ => false) (fun _ => 0) 2 5 twoEndpointRouter
    { providerId := "a" } errBadRequest (by decide) (by decide) (by decide)
    (by decide) rfl (by decide)

/-- The backoff formula maps a draw in `[0, 1)` into
`[0, min(1000·2^(t−1), 5000))`. -/
theorem backoffDelayMs_mem_Ico (t : ℕ) (r : ℚ) (h0 : 0 ≤ r) (h1 : r < 1) :
    0 ≤ backoffDelayMs t r ∧
      backoffDelayMs t r < min (1000 * 2 ^ (t - 1)) 5000 := by
  have hcap : (0 : ℚ) < min (1000 * 2 ^ (t - 1)) 5000 := by
    apply lt_min
    · positivity
    · norm_num
  refine ⟨mul_nonneg h0 (le_of_lt hcap), ?_⟩
  calc r * min (1000 * 2 ^ (t - 1)) 5000
      < 1 * min (1000 * 2 ^ (t - 1)) 5000 :=
        mul_lt_mul_of_pos_right h1 hcap
    _ = min (1000 * 2 ^ (t - 1)) 5000 := one_mul _

/-- Every backoff wait recorded by the failover loop is the jitter draw for
its iteration scaled into the capped exponential window. -/
theorem poolGo_waits_backoff (behavior : String → Except JsErr String)
    (cooled : String → Bool) (maxUnique : ℕ) (rand : ℕ → ℚ)
    (hr : ∀ k, 0 ≤ rand k ∧ rand k < 1) :
    ∀ (fuel : ℕ) (rt : RouterState) (tried : List String) (ridx : ℕ)
      (t : ℕ) (d : ℚ),
      (t, d) ∈
        (poolGo behavior cooled maxUnique rand fuel rt tried ridx).1.waits →
      0 ≤ d ∧ d < min (1000 * 2 ^ (t - 1)) 5000 := by
  intro fuel
  induction fuel with
  | zero =>
    intro rt tried ridx t d hmem
    unfold poolGo at hmem
    by_cases h : tried.length < maxUnique
    · rw [if_pos h] at hmem; simp at hmem
    · rw [if_neg h] at hmem; simp at hmem
  | succ f ih =>
    intro rt tried ridx t d hmem
    unfold poolGo at hmem
    by_cases h : tried.length < maxUnique
    · rw [if_pos h] at hmem
      rcases hrp : routerPick rt cooled with ⟨o, rt2⟩
      rw [hrp] at hmem
      match o with
      | none => simp at hmem
      | some ep =>
        dsimp only at hmem
        by_cases hdup : tried.contains ep.providerId
        · rw [if_pos hdup] at hmem
          exact ih rt2 tried ridx t d hmem
        · rw [if_neg hdup] at hmem
          rcases hbeh : behavior ep.providerId with e2 | v
          · rw [hbeh] at hmem
            dsimp only at hmem
            by_cases hsf : shouldFailover e2 = false
            · rw [if_pos hsf] at hmem; simp at hmem
            · rw [if_neg hsf] at hmem
              by_cases hbud :
                  maxUnique ≤ (tried ++ [ep.providerId]).length
              · rw [if_pos hbud] at hmem; simp at hmem
              · rw [if_neg hbud] at hmem
                dsimp only at hmem
                rcases List.mem_cons.mp hmem with heq | htail
                · rw [Prod.mk.injEq] at heq
                  obtain ⟨ht, hd⟩ := heq
                  subst ht
                  subst hd
                  exact backoffDelayMs_mem_Ico _ _ (hr ridx).1 (hr ridx).2
                · exact ih rt2 (tried ++ [ep.providerId]) (ridx + 1) t d
                    htail
          · rw [hbeh] at hmem; simp at hmem
    · rw [if_neg h] at hmem; simp at hmem

/-- Claim C6: after a failover-eligible failure with budget remaining and
`triedCount` unique endpoints tried, the recorded wait lies in
`[0, min(1000·2^(triedCount−1), 5000))` whenever the `Math.random()` draws
lie in `[0, 1)`, and conversely every value of that interval is realized by
exactly the backoff formula at some draw in `[0, 1)` — i.e. the wait is the
uniform draw rescaled onto that interval. -/
theorem pool_backoff_full_jitter (behavior : String → Except JsErr String)
    (cooled : String → Bool) (rand : ℕ → ℚ) (attempts fuel : ℕ)
    (rt : RouterState) (hr : ∀ k, 0 ≤ rand k ∧ rand k < 1) :
    (∀ (t : ℕ) (d : ℚ),
      (t, d) ∈ (poolSend behavior cooled rand attempts rt fuel).1.waits →
      0 ≤ d ∧ d < min (1000 * 2 ^ (t - 1)) 5000) ∧
    (∀ (t : ℕ) (d : ℚ), 0 ≤ d → d < min (1000 * 2 ^ (t - 1)) 5000 →
      ∃ r, 0 ≤ r ∧ r < 1 ∧ backoffDelayMs t r = d) := by
  constructor
  · intro t d hmem
    exact poolGo_waits_backoff behavior cooled
      (min attempts (routerSize rt)) rand hr fuel rt [] 0 t d hmem
  · intro t d h0 hlt
    have hcap : (0 : ℚ) < min (1000 * 2 ^ (t - 1)) 5000 := by
      apply lt_min
      · positivity
      · norm_num
    refine ⟨d / min (1000 * 2 ^ (t - 1)) 5000, div_nonneg h0 (le_of_lt hcap),
      (div_lt_one hcap).mpr hlt, ?_⟩
    unfold backoffDelayMs
    exact div_mul_cancel₀ d (ne_of_gt hcap)

/-- Claim C6, witness: after one tried endpoint, the delay of 500 ms inside
the 1000 ms window is realized by a draw in `[0, 1)`. -/
theorem pool_backoff_full_jitter_witness :
    ∃ r, 0 ≤ r ∧ r < 1 ∧ backoffDelayMs 1 r = 500 :=
  (pool_backoff_full_jitter (fun _ => .ok "OK") (fun _ => false)
      (fun _ => 0) 2 5 twoEndpointRouter (fun _ => by norm_num)).2 1 500
    (by norm_num) (by norm_num [min_def])

end RpcPool
